import Mathlib

/-!
Verification development for the college-football pick'em application
(`src/main.py`): game catalog ingestion, prediction submission, profile
scoring/streaks/badges, and the leaderboard query, embedded as pure
functions over explicit database states.

Conventions of the embedding:
* SQLite TEXT columns are `String`; ordering on them is Lean's `String`
  order (bytewise for the ASCII data used here), matching SQLite's
  BINARY collation.
* SQLite REAL is `Rat`, INTEGER is `Int`; NULLable columns are `Option`.
* Where SQLite leaves result order formally unspecified (`GROUP BY` on
  an unindexed column, equal `ORDER BY` keys), the embedding uses the
  deterministic behavior of SQLite's sorter: grouping presents groups in
  BINARY-ascending key order and the outer sort is stable.
-/

namespace PickEm

/-- Lexicographic less-or-equal on character lists by codepoint; the
kernel-reducible core of `strLe`. -/
def strLeChars : List Char → List Char → Bool
  | [], _ => true
  | _ :: _, [] => false
  | a :: xs, b :: ys =>
    if a.toNat < b.toNat then true
    else if b.toNat < a.toNat then false
    else strLeChars xs ys

/-- SQLite's BINARY collation on TEXT values (bytewise less-or-equal;
identical to codepoint order on the ASCII data used throughout). -/
def strLe (a b : String) : Bool :=
  strLeChars a.data b.data

/-- Row of the `games` table (`init_db` in `src/main.py`). -/
structure Game where
  game_id : String
  short_name : String
  home_id : String
  home_name : String
  away_id : String
  away_name : String
  start_utc : String
  over_under : Option Rat
  final_home_score : Option Int
  final_away_score : Option Int
  is_final : Bool
deriving DecidableEq, Repr

/-- Row of the `picks` table, minus the autoincrement `pick_id`
(row identity is positional in the embedding). Note the schema stores
no line value on the pick. -/
structure Pick where
  user : String
  game_id : String
  pick_winner : String
  pick_total : String
  made_at : String
deriving DecidableEq, Repr

/-- A feed record as passed to `upsert_games`: the dict built by
`fetch_ap_top25_games_for_week`, which carries no final-score fields. -/
structure FeedRecord where
  game_id : String
  short_name : String
  home_id : String
  home_name : String
  away_id : String
  away_name : String
  start_utc : String
  over_under : Option Rat
deriving DecidableEq, Repr

/-- The database state the claims concern: `games`, `users` (usernames
only), and `picks`. -/
structure DBState where
  games : List Game
  users : List String
  picks : List Pick
deriving DecidableEq, Repr

/-- The `ON CONFLICT ... DO UPDATE` arm of `upsert_games`: overwrite the
descriptive columns, kickoff and line; the final-score columns and
`is_final` are not in the SET list and keep their values. -/
def applyRecord (r : FeedRecord) (g : Game) : Game :=
  { g with
    short_name := r.short_name
    home_id := r.home_id
    home_name := r.home_name
    away_id := r.away_id
    away_name := r.away_name
    start_utc := r.start_utc
    over_under := r.over_under }

/-- The INSERT arm of `upsert_games`: final scores are not in the column
list (so NULL) and `is_final` takes its DEFAULT 0. -/
def newGame (r : FeedRecord) : Game :=
  { game_id := r.game_id
    short_name := r.short_name
    home_id := r.home_id
    home_name := r.home_name
    away_id := r.away_id
    away_name := r.away_name
    start_utc := r.start_utc
    over_under := r.over_under
    final_home_score := none
    final_away_score := none
    is_final := false }

/-- One `INSERT ... ON CONFLICT(game_id) DO UPDATE` statement. -/
def upsertOne (games : List Game) (r : FeedRecord) : List Game :=
  if games.any (fun g => g.game_id == r.game_id) then
    games.map (fun g => if g.game_id == r.game_id then applyRecord r g else g)
  else
    games ++ [newGame r]

/-- `upsert_games` from `src/main.py`: fold the batch through the
single-row upsert. -/
def upsert_games (games : List Game) (rs : List FeedRecord) : List Game :=
  rs.foldl upsertOne games

/-- One `UPDATE games SET final_home_score=?, final_away_score=?,
is_final=? WHERE game_id=?` statement, as issued per event by
`update_scores_with_finals`. -/
def applyFinalResult (games : List Game) (gid : String)
    (homeScore awayScore : Option Int) (completed : Bool) : List Game :=
  games.map (fun g =>
    if g.game_id == gid then
      { g with
        final_home_score := homeScore
        final_away_score := awayScore
        is_final := completed }
    else g)

/-- The `INSERT OR IGNORE INTO users` statement in `make_prediction`. -/
def insertOrIgnoreUser (users : List String) (u : String) : List String :=
  if users.contains u then users else users ++ [u]

/-- The `INSERT INTO picks` in `make_prediction`: the UNIQUE(user,
game_id) constraint raises `IntegrityError` on a duplicate key, which
the handler catches with `pass`, leaving the table unchanged. -/
def insertPick (picks : List Pick) (p : Pick) : List Pick :=
  if picks.any (fun q => q.user == p.user && q.game_id == p.game_id) then picks
  else picks ++ [p]

/-- The `/predict` handler `make_prediction` from `src/main.py`: insert
the user if missing, then attempt the pick insert. No field of the
`games` table is consulted. `now` is the handler's
`datetime.utcnow().isoformat()`. -/
def make_prediction (st : DBState) (user game_id winner pick_total now : String) :
    DBState :=
  { st with
    users := insertOrIgnoreUser st.users user
    picks := insertPick st.picks
      { user := user, game_id := game_id, pick_winner := winner
        pick_total := pick_total, made_at := now } }

/-- Modelled from the spec: the Lock Gate `isLocked(game, now)` —
"a game is locked once now >= kickoff". No function of `src/main.py`
implements this check; it is stated here so the submission claims can
be expressed against it. Timestamps are ISO-8601 strings, compared
textually. -/
def isLocked (g : Game) (now : String) : Bool :=
  strLe g.start_utc now

/-- Lookup a game row by id (`LEFT JOIN games g ON g.game_id = p.game_id`;
`game_id` is the primary key, so at most one row matches). -/
def findGame (games : List Game) (gid : String) : Option Game :=
  games.find? (fun g => g.game_id == gid)

/-- The profile loop's `actual_winner = "home" if home > away else "away"`. -/
def profileActualWinner (home aw : Int) : String :=
  if home > aw then "home" else "away"

/-- The profile loop's
`ou_result = "over" if total_points > (pick["over_under"] or 0) else "under"`:
a NULL line (and a 0 line) is treated as 0. -/
def profileOUResult (total : Int) (line : Option Rat) : String :=
  if (total : Rat) > line.getD 0 then "over" else "under"

/-- The winner component `pick["pick_winner"] == actual_winner` of the
profile loop's `correct`. -/
def winnerCorrect (pick_winner : String) (home aw : Int) : Bool :=
  pick_winner == profileActualWinner home aw

/-- The total component `pick["pick_total"] == ou_result` of the profile
loop's `correct`. -/
def totalCorrectProfile (pick_total : String) (total : Int) (line : Option Rat) : Bool :=
  pick_total == profileOUResult total line

/-- The profile loop's
`correct = (pick["pick_winner"] == actual_winner) and (pick["pick_total"] == ou_result)`. -/
def pickCorrect (g : Game) (p : Pick) (home aw : Int) : Bool :=
  winnerCorrect p.pick_winner home aw &&
    totalCorrectProfile p.pick_total (home + aw) g.over_under

/-- The leaderboard query's
`CASE WHEN g.final_home_score > g.final_away_score THEN 'home' ELSE 'away' END`;
a NULL score makes the comparison NULL, which is not true, so the ELSE
branch yields `'away'`. -/
def sqlCaseWinner (g : Game) : String :=
  match g.final_home_score, g.final_away_score with
  | some h, some a => if h > a then "home" else "away"
  | _, _ => "away"

/-- The leaderboard query's
`CASE WHEN g.final_home_score + g.final_away_score > g.over_under THEN 'over' ELSE 'under' END`;
any NULL operand makes the comparison NULL, so the ELSE branch yields
`'under'`. -/
def sqlCaseTotal (g : Game) : String :=
  match g.final_home_score, g.final_away_score, g.over_under with
  | some h, some a, some line => if ((h + a : Int) : Rat) > line then "over" else "under"
  | _, _, _ => "under"

/-- Whether a pick row satisfies the leaderboard query's JOIN and WHERE
clause: its game exists, `g.is_final = 1`, and both CASE comparisons
match the pick. -/
def leaderboardHit (games : List Game) (p : Pick) : Bool :=
  match findGame games p.game_id with
  | none => false
  | some g =>
      g.is_final && p.pick_winner == sqlCaseWinner g && p.pick_total == sqlCaseTotal g

/-- Running state of the profile loop: `total_picks`, `wins`,
`current_streak`, `last_was_win` (Python's None/True/False). -/
structure ProfileAcc where
  total_picks : Nat
  wins : Nat
  current_streak : Nat
  last_was_win : Option Bool
deriving DecidableEq, Repr

/-- Initial accumulator of the profile loop. -/
def profileInit : ProfileAcc := ⟨0, 0, 0, none⟩

/-- One iteration of the profile loop over a pick row joined with its
game. A missing join partner leaves all game columns NULL, so
`if not pick["is_final"]` skips the row; a final game with a NULL score
is counted in `total_picks` but then skipped before the streak logic. -/
def profileStep (games : List Game) (acc : ProfileAcc) (p : Pick) : ProfileAcc :=
  match findGame games p.game_id with
  | none => acc
  | some g =>
    if g.is_final then
      match g.final_home_score, g.final_away_score with
      | some home, some aw =>
        if pickCorrect g p home aw then
          { total_picks := acc.total_picks + 1
            wins := acc.wins + 1
            current_streak :=
              if acc.last_was_win = some false then 1 else acc.current_streak + 1
            last_was_win := some true }
        else
          { total_picks := acc.total_picks + 1
            wins := acc.wins
            current_streak := 0
            last_was_win := some false }
      | _, _ => { acc with total_picks := acc.total_picks + 1 }
    else acc

/-- The profile's `SELECT game_id FROM games ORDER BY start_utc ASC
LIMIT 15`. The sort is by the TEXT kickoff column, ascending; ties keep
the deterministic stable order of the embedding's sorter. -/
def top_game_ids (games : List Game) : List String :=
  ((games.insertionSort (fun a b => strLe a.start_utc b.start_utc = true)).take 15).map
    (fun g => g.game_id)

/-- The profile's pick query: the user's picks restricted to the top-15
game ids, ordered by `made_at` ascending. -/
def profilePicks (games : List Game) (picks : List Pick) (user : String) : List Pick :=
  (picks.filter
      (fun p => p.user == user && (top_game_ids games).contains p.game_id)).insertionSort
    (fun a b => strLe a.made_at b.made_at = true)

/-- The state of the profile loop after walking the user's (restricted,
ordered) picks. -/
def profileAcc (games : List Game) (picks : List Pick) (user : String) : ProfileAcc :=
  (profilePicks games picks user).foldl (profileStep games) profileInit

/-- The profile's `win_rate = int((wins / total_picks) * 100)` (0 when no
picks). Python computes this through binary floating point and truncates
toward zero; the embedding uses exact integer division, which agrees
except on float-rounding boundary artifacts that no claim depends on. -/
def win_rate (acc : ProfileAcc) : Nat :=
  if acc.total_picks > 0 then acc.wins * 100 / acc.total_picks else 0

/-- The badge-award decisions the profile handler makes inline:
`Streak5` when `current_streak >= 5`, `Win80` when `win_rate >= 80 and
total_picks >= 10`. -/
def badgesDecided (acc : ProfileAcc) : List String :=
  (if acc.current_streak ≥ 5 then ["Streak5"] else []) ++
    (if win_rate acc ≥ 80 && acc.total_picks ≥ 10 then ["Win80"] else [])

/-- The scored result of one pick, as the profile loop's streak logic
sees it: `none` when the pick's game is missing, not final, or has a
NULL final score (such rows are invisible to the streak walk), otherwise
the loop's `correct` boolean. -/
def scoredResult (games : List Game) (p : Pick) : Option Bool :=
  match findGame games p.game_id with
  | none => none
  | some g =>
    if g.is_final then
      match g.final_home_score, g.final_away_score with
      | some home, some aw => some (pickCorrect g p home aw)
      | _, _ => none
    else none

/-- The sequence of scored results of a pick list, unscored rows dropped. -/
def scoredResults (games : List Game) (ps : List Pick) : List Bool :=
  ps.filterMap (scoredResult games)

/-- Modelled from the spec: `computeStreak(orderedScoredResults)` —
walk oldest to newest, increment the counter on a fully-correct result,
reset it to zero on anything else. -/
def computeStreak (results : List Bool) : Nat :=
  results.foldl (fun s r => if r then s + 1 else 0) 0

/-- Modelled from the spec: the claim's streak over ALL of the user's
scored results ordered by prediction-made time, with no restriction on
which games are considered. -/
def claimStreakAllGames (games : List Game) (picks : List Pick) (user : String) : Nat :=
  computeStreak (scoredResults games
    ((picks.filter (fun p => p.user == user)).insertionSort
      (fun a b => strLe a.made_at b.made_at = true)))

/-- Modelled from the spec: the Scoring Engine's
`points = (winner-correct ? 1 : 0) + (total-correct ? 1 : 0)`. -/
def pointsSpec (winnerOk totalOk : Bool) : Nat :=
  (if winnerOk then 1 else 0) + (if totalOk then 1 else 0)

/-- A user's leaderboard count: `COUNT(*)` of their pick rows passing
the query's JOIN and WHERE clause. -/
def userHits (games : List Game) (picks : List Pick) (u : String) : Nat :=
  (picks.filter (fun p => p.user == u && leaderboardHit games p)).length

/-- The users produced by `GROUP BY p.user` over the qualifying rows:
distinct users, in BINARY-ascending username order (SQLite groups an
unindexed key by sorting it with BINARY collation). -/
def leaderboardUsers (games : List Game) (picks : List Pick) : List String :=
  (((picks.filter (leaderboardHit games)).map (fun p => p.user)).dedup).insertionSort
    (fun a b => strLe a b = true)

/-- The `/leaderboard` query: one `(user, correct)` row per grouped user,
then `ORDER BY correct DESC`. The embedding's sorter is stable, so rows
with equal counts keep the grouping's username order. -/
def leaderboard (games : List Game) (picks : List Pick) : List (String × Nat) :=
  ((leaderboardUsers games picks).map
      (fun u => (u, userHits games picks u))).insertionSort
    (fun x y => y.2 ≤ x.2)

/-- Helper for concrete test fixtures: a game whose team/name fields are
derived from the id. -/
def mkGame (gid su : String) (line : Option Rat) (hs aws : Option Int)
    (fin : Bool) : Game :=
  { game_id := gid, short_name := gid, home_id := gid, home_name := gid
    away_id := gid, away_name := gid, start_utc := su, over_under := line
    final_home_score := hs, final_away_score := aws, is_final := fin }

/-- Helper for concrete test fixtures: a feed record with fields derived
from the id. -/
def mkRecord (gid su : String) (line : Option Rat) : FeedRecord :=
  { game_id := gid, short_name := gid, home_id := gid, home_name := gid
    away_id := gid, away_name := gid, start_utc := su, over_under := line }

/-! ### Order-theoretic facts about the BINARY collation -/

theorem strLeChars_total : ∀ xs ys : List Char,
    strLeChars xs ys = true ∨ strLeChars ys xs = true := by
  intro xs
  induction xs with
  | nil => intro ys; left; rfl
  | cons a xs ih =>
    intro ys
    cases ys with
    | nil => right; rfl
    | cons b ys =>
      rcases Nat.lt_trichotomy a.toNat b.toNat with h | h | h
      · left; simp [strLeChars, h]
      · rcases ih ys with h2 | h2
        · left; simp [strLeChars, h, h2]
        · right; simp [strLeChars, h, h2]
      · right; simp [strLeChars, h]

theorem strLeChars_trans : ∀ xs ys zs : List Char,
    strLeChars xs ys = true → strLeChars ys zs = true → strLeChars xs zs = true := by
  intro xs
  induction xs with
  | nil => intro ys zs _ _; rfl
  | cons a xs ih =>
    intro ys zs h1 h2
    match ys, zs with
    | [], _ => simp [strLeChars] at h1
    | _ :: _, [] => simp [strLeChars] at h2
    | b :: ys, c :: zs =>
      simp only [strLeChars] at h1 h2 ⊢
      by_cases hab : a.toNat < b.toNat <;> by_cases hba : b.toNat < a.toNat <;>
        by_cases hbc : b.toNat < c.toNat <;> by_cases hcb : c.toNat < b.toNat <;>
        simp_all <;>
        first
          | omega
          | exact Or.inr ⟨by omega, ih ys zs h1 h2⟩

instance : IsTotal String (fun a b => strLe a b = true) :=
  ⟨fun a b => strLeChars_total a.data b.data⟩

instance : IsTrans String (fun a b => strLe a b = true) :=
  ⟨fun a b c => strLeChars_trans a.data b.data c.data⟩

instance : IsTotal (String × Nat) (fun x y => y.2 ≤ x.2) :=
  ⟨fun a b => Nat.le_total b.2 a.2⟩

instance : IsTrans (String × Nat) (fun x y => y.2 ≤ x.2) :=
  ⟨fun _ _ _ h1 h2 => Nat.le_trans h2 h1⟩

/-! ### Stability of the leaderboard ordering -/

/-- The combined leaderboard order: higher count first, and within equal
counts strictly ascending usernames in BINARY collation. -/
def lbKey (x y : String × Nat) : Prop :=
  y.2 < x.2 ∨ (x.2 = y.2 ∧ strLe x.1 y.1 = true ∧ x.1 ≠ y.1)

/-- Strictly ascending usernames, as the grouping produces them. -/
def nameLt (x y : String × Nat) : Prop :=
  strLe x.1 y.1 = true ∧ x.1 ≠ y.1

theorem pairwise_orderedInsert_lbKey (x : String × Nat) :
    ∀ l : List (String × Nat), l.Pairwise lbKey → (∀ y ∈ l, nameLt x y) →
      (l.orderedInsert (fun p q => q.2 ≤ p.2) x).Pairwise lbKey := by
  intro l
  induction l with
  | nil => intro _ _; simp [List.pairwise_cons]
  | cons y ys ih =>
    intro hl hx
    by_cases hr : y.2 ≤ x.2
    · rw [List.orderedInsert, if_pos hr]
      refine List.Pairwise.cons ?_ hl
      intro z hz
      rcases List.mem_cons.1 hz with hz | hz
      · rw [hz]
        rcases Nat.lt_or_ge y.2 x.2 with h | h
        · exact Or.inl h
        · exact Or.inr ⟨Nat.le_antisymm h hr,
            (hx y (List.mem_cons_self y ys)).1, (hx y (List.mem_cons_self y ys)).2⟩
      · have hyz := (List.pairwise_cons.1 hl).1 z hz
        rcases hyz with h | h
        · exact Or.inl (Nat.lt_of_lt_of_le h hr)
        · rcases Nat.lt_or_ge y.2 x.2 with h2 | h2
          · exact Or.inl (h.1 ▸ h2)
          · have hxy : x.2 = y.2 := Nat.le_antisymm h2 hr
            exact Or.inr ⟨hxy.trans h.1,
              (hx z (List.mem_cons_of_mem y hz)).1, (hx z (List.mem_cons_of_mem y hz)).2⟩
    · rw [List.orderedInsert, if_neg hr]
      refine List.Pairwise.cons ?_
        (ih (List.pairwise_cons.1 hl).2 (fun z hz => hx z (List.mem_cons_of_mem y hz)))
      intro z hz
      rcases (List.mem_orderedInsert _).1 hz with hz | hz
      · subst hz
        exact Or.inl (Nat.lt_of_not_le hr)
      · exact (List.pairwise_cons.1 hl).1 z hz

theorem pairwise_insertionSort_lbKey :
    ∀ l : List (String × Nat), l.Pairwise nameLt →
      (l.insertionSort (fun p q => q.2 ≤ p.2)).Pairwise lbKey := by
  intro l
  induction l with
  | nil => intro _; simp
  | cons x l ih =>
    intro hl
    rw [List.insertionSort]
    refine pairwise_orderedInsert_lbKey x _ (ih (List.pairwise_cons.1 hl).2) ?_
    intro y hy
    exact (List.pairwise_cons.1 hl).1 y ((List.mem_insertionSort _).1 hy)

/-! ### The profile loop's streak is the simple walk over scored results -/

theorem foldl_profileStep_streak (games : List Game) :
    ∀ (ps : List Pick) (acc : ProfileAcc),
      (acc.last_was_win = some false → acc.current_streak = 0) →
      (ps.foldl (profileStep games) acc).current_streak =
        (scoredResults games ps).foldl (fun s r => if r then s + 1 else 0)
          acc.current_streak := by
  intro ps
  induction ps with
  | nil => intro acc _; rfl
  | cons p ps ih =>
    intro acc hacc
    rw [List.foldl_cons, scoredResults, List.filterMap_cons]
    cases hg : findGame games p.game_id with
    | none =>
      have h1 : profileStep games acc p = acc := by simp [profileStep, hg]
      have h2 : scoredResult games p = none := by simp [scoredResult, hg]
      rw [h1, h2]
      exact ih acc hacc
    | some g =>
      cases hf : g.is_final with
      | false =>
        have h1 : profileStep games acc p = acc := by simp [profileStep, hg, hf]
        have h2 : scoredResult games p = none := by simp [scoredResult, hg, hf]
        rw [h1, h2]
        exact ih acc hacc
      | true =>
        cases hh : g.final_home_score with
        | none =>
          have h1 : profileStep games acc p = { acc with total_picks := acc.total_picks + 1 } := by
            simp [profileStep, hg, hf, hh]
          have h2 : scoredResult games p = none := by simp [scoredResult, hg, hf, hh]
          rw [h1, h2]
          exact ih _ hacc
        | some home =>
          cases ha : g.final_away_score with
          | none =>
            have h1 : profileStep games acc p = { acc with total_picks := acc.total_picks + 1 } := by
              simp [profileStep, hg, hf, hh, ha]
            have h2 : scoredResult games p = none := by simp [scoredResult, hg, hf, hh, ha]
            rw [h1, h2]
            exact ih _ hacc
          | some aw =>
            cases hc : pickCorrect g p home aw with
            | true =>
              have h2 : scoredResult games p = some true := by
                simp [scoredResult, hg, hf, hh, ha, hc]
              have h1 : profileStep games acc p =
                  { total_picks := acc.total_picks + 1, wins := acc.wins + 1
                    current_streak := acc.current_streak + 1
                    last_was_win := some true } := by
                by_cases hlw : acc.last_was_win = some false
                · simp [profileStep, hg, hf, hh, ha, hc, hlw, hacc hlw]
                · simp [profileStep, hg, hf, hh, ha, hc, hlw]
              rw [h1, h2]
              have := ih { total_picks := acc.total_picks + 1, wins := acc.wins + 1
                           current_streak := acc.current_streak + 1
                           last_was_win := some true } (by intro h; simp at h)
              simpa using this
            | false =>
              have h2 : scoredResult games p = some false := by
                simp [scoredResult, hg, hf, hh, ha, hc]
              have h1 : profileStep games acc p =
                  { total_picks := acc.total_picks + 1, wins := acc.wins
                    current_streak := 0, last_was_win := some false } := by
                simp [profileStep, hg, hf, hh, ha, hc]
              rw [h1, h2]
              have := ih { total_picks := acc.total_picks + 1, wins := acc.wins
                           current_streak := 0, last_was_win := some false }
                (by intro _; rfl)
              simpa using this

/-! ### Pick-store helper lemmas -/

/-- At most one pick row per (user, game_id) key. -/
def pickKeyUnique (picks : List Pick) : Prop :=
  picks.Pairwise (fun p q => ¬(p.user = q.user ∧ p.game_id = q.game_id))

theorem insertPick_unique (picks : List Pick) (p : Pick) (h : pickKeyUnique picks) :
    pickKeyUnique (insertPick picks p) := by
  unfold insertPick
  cases hany : picks.any (fun q => q.user == p.user && q.game_id == p.game_id) with
  | true => simpa using h
  | false =>
    simp only [Bool.false_eq_true, if_false]
    rw [pickKeyUnique, List.pairwise_append]
    refine ⟨h, List.pairwise_singleton _ _, ?_⟩
    intro q hq r hr
    have hr' : r = p := by simpa using hr
    intro hqp
    have h1 : q.user = p.user := hr' ▸ hqp.1
    have h2 : q.game_id = p.game_id := hr' ▸ hqp.2
    have : picks.any (fun q => q.user == p.user && q.game_id == p.game_id) = true :=
      List.any_eq_true.2 ⟨q, hq, by simp [h1, h2]⟩
    rw [this] at hany
    exact absurd hany (by simp)

theorem insertPick_existing (picks : List Pick) (p q : Pick) (hq : q ∈ picks)
    (hu : q.user = p.user) (hg : q.game_id = p.game_id) :
    insertPick picks p = picks := by
  unfold insertPick
  have : picks.any (fun r => r.user == p.user && r.game_id == p.game_id) = true :=
    List.any_eq_true.2 ⟨q, hq, by simp [hu, hg]⟩
  simp [this]

/-! ### Claims -/

/-- C1: the spec requires a submission on a locked game (kickoff at or
before `now`) to fail with `LockedError` and leave the stored prediction
unchanged. The code has no lock check at all: at the failing input below
the game kicked off at 2025-10-04T16:00, the submission arrives the next
day, `isLocked` holds, and `make_prediction` nonetheless stores the new
pick and reports success. -/
theorem c1_submit_after_lock_is_stored :
    isLocked (mkGame "g1" "2025-10-04T16:00" (some 50) none none false)
        "2025-10-05T09:00" = true ∧
      (make_prediction
          ⟨[mkGame "g1" "2025-10-04T16:00" (some 50) none none false], [], []⟩
          "u" "g1" "home" "over" "2025-10-05T09:00").picks =
        [⟨"u", "g1", "home", "over", "2025-10-05T09:00"⟩] := by
  decide

/-- C2 counterexample: a second submit for the same (user, game) pair,
made while the game is still unlocked, does NOT overwrite the earlier
prediction: the stored row keeps winner `home` / total `over`, the new
values `away`/`under` are discarded (`IntegrityError` is caught and
ignored). -/
theorem c2_second_submit_ignored :
    isLocked (mkGame "g1" "2025-10-04T16:00" (some 50) none none false)
        "2025-10-02T10:00" = false ∧
      (make_prediction
          ⟨[mkGame "g1" "2025-10-04T16:00" (some 50) none none false], ["u"],
            [⟨"u", "g1", "home", "over", "2025-10-01T10:00"⟩]⟩
          "u" "g1" "away" "under" "2025-10-02T10:00").picks =
        [⟨"u", "g1", "home", "over", "2025-10-01T10:00"⟩] := by
  decide

/-- C2 amended: there is at most one live Prediction per (user, game)
pair, but a second submit for an existing pair leaves the earlier
prediction entirely unchanged (first write wins) instead of overwriting
it with the new values. -/
theorem c2_unique_first_write_wins (st : DBState) (u gid w t now : String)
    (h : pickKeyUnique st.picks) :
    pickKeyUnique (make_prediction st u gid w t now).picks ∧
      (∀ p ∈ st.picks, p.user = u → p.game_id = gid →
        (make_prediction st u gid w t now).picks = st.picks) := by
  constructor
  · exact insertPick_unique st.picks _ h
  · intro p hp hu hg
    exact insertPick_existing st.picks _ p hp hu hg

theorem c2_unique_first_write_wins_witness :
    pickKeyUnique (make_prediction
        ⟨[], ["u"], [⟨"u", "g1", "home", "over", "t0"⟩]⟩
        "u" "g1" "away" "under" "t1").picks ∧
      (make_prediction ⟨[], ["u"], [⟨"u", "g1", "home", "over", "t0"⟩]⟩
          "u" "g1" "away" "under" "t1").picks =
        [⟨"u", "g1", "home", "over", "t0"⟩] :=
  ⟨(c2_unique_first_write_wins ⟨[], ["u"], [⟨"u", "g1", "home", "over", "t0"⟩]⟩
      "u" "g1" "away" "under" "t1" (by simp [pickKeyUnique])).1,
    (c2_unique_first_write_wins ⟨[], ["u"], [⟨"u", "g1", "home", "over", "t0"⟩]⟩
      "u" "g1" "away" "under" "t1" (by simp [pickKeyUnique])).2
      ⟨"u", "g1", "home", "over", "t0"⟩ (by simp) rfl rfl⟩

/-- C3 counterexample: on a 20–20 tie both scoring paths credit the
`away` side: the profile's winner comparison is true for an `away` pick,
and the leaderboard CASE yields `'away'`; the claim says winner-correct
is false for both sides on a tie. -/
theorem c3_tie_credits_away :
    winnerCorrect "away" 20 20 = true ∧ winnerCorrect "home" 20 20 = false ∧
      sqlCaseWinner (mkGame "g1" "t" (some 50) (some 20) (some 20) true) = "away" := by
  decide

/-- C3 amended: winner-correct for `home` holds iff the home score is
strictly higher, but winner-correct for `away` holds iff the home score
is NOT strictly higher — so a tie credits an `away` pick (and never a
`home` pick); scoring a tie does not crash. The leaderboard CASE agrees
with the profile's `actual_winner` whenever both final scores are
present. -/
theorem c3_winner_by_strict_home_comparison :
    ∀ (w : String) (home aw : Int) (g : Game),
      (winnerCorrect w home aw = true ↔
        ((w = "home" ∧ aw < home) ∨ (w = "away" ∧ home ≤ aw))) ∧
      sqlCaseWinner
          { g with final_home_score := some home, final_away_score := some aw } =
        profileActualWinner home aw := by
  intro w home aw g
  constructor
  · unfold winnerCorrect profileActualWinner
    by_cases h : home > aw
    · simp only [if_pos h, beq_iff_eq]
      constructor
      · intro hw; exact Or.inl ⟨hw, h⟩
      · rintro (⟨hw, _⟩ | ⟨_, hle⟩)
        · exact hw
        · omega
    · simp only [if_neg h, beq_iff_eq]
      constructor
      · intro hw; exact Or.inr ⟨hw, by omega⟩
      · rintro (⟨_, hlt⟩ | ⟨hw, _⟩)
        · omega
        · exact hw
  · rfl

/-- C4 counterexample: with line 50 and final total exactly 50, the
profile credits an `under` pick (claim: neither side); with a NULL line
and total 21, the profile credits an `over` pick (claim: total-correct
is false); the leaderboard CASE likewise yields `'under'` on an exact
tie to the line, crediting `under` pickers. -/
theorem c4_line_tie_and_null_line_credited :
    totalCorrectProfile "under" 50 (some 50) = true ∧
      totalCorrectProfile "over" 21 none = true ∧
      sqlCaseTotal (mkGame "g1" "t" (some 50) (some 20) (some 30) true) = "under" := by
  decide

/-- C4 amended: with a non-null line, `over` is correct iff total > line
and `under` is correct iff total ≤ line — an exact tie credits `under`,
not neither; with a NULL line the profile substitutes 0 for the line
(crediting `over` iff total > 0 and `under` otherwise), while the
leaderboard CASE yields `'under'`, crediting `under` pickers; in no
engine is a null-line total-correct unconditionally false. -/
theorem c4_total_by_strict_over_comparison :
    ∀ (d : String) (total : Int) (l : Rat) (g : Game),
      (totalCorrectProfile d total (some l) = true ↔
        ((d = "over" ∧ l < (total : Rat)) ∨ (d = "under" ∧ (total : Rat) ≤ l))) ∧
      (totalCorrectProfile d total none = true ↔
        ((d = "over" ∧ 0 < total) ∨ (d = "under" ∧ total ≤ 0))) ∧
      sqlCaseTotal { g with over_under := none } = "under" := by
  intro d total l g
  refine ⟨?_, ?_, ?_⟩
  · unfold totalCorrectProfile profileOUResult
    by_cases h : (total : Rat) > l
    · simp only [Option.getD_some, if_pos h, beq_iff_eq]
      constructor
      · intro hd; exact Or.inl ⟨hd, h⟩
      · rintro (⟨hd, _⟩ | ⟨_, hle⟩)
        · exact hd
        · exact absurd h (not_lt.2 hle)
    · simp only [Option.getD_some, if_neg h, beq_iff_eq]
      constructor
      · intro hd; exact Or.inr ⟨hd, not_lt.1 h⟩
      · rintro (⟨_, hlt⟩ | ⟨hd, _⟩)
        · exact absurd hlt h
        · exact hd
  · unfold totalCorrectProfile profileOUResult
    have hcast : ((total : Rat) > (none : Option Rat).getD 0) ↔ 0 < total := by
      simp
    by_cases h : (0 : Int) < total
    · rw [if_pos (hcast.2 h)]
      simp only [beq_iff_eq]
      constructor
      · intro hd; exact Or.inl ⟨hd, h⟩
      · rintro (⟨hd, _⟩ | ⟨_, hle⟩)
        · exact hd
        · omega
    · rw [if_neg (fun hc => h (hcast.1 hc))]
      simp only [beq_iff_eq]
      constructor
      · intro hd; exact Or.inr ⟨hd, by omega⟩
      · rintro (⟨_, hlt⟩ | ⟨hd, _⟩)
        · omega
        · exact hd
  · obtain ⟨gid, sn, hi, hn, ai, an, su, ou, fh, fa, fin⟩ := g
    cases fh <;> cases fa <;> rfl

/-- C5 counterexample: the pick schema stores no line. A pick of `over`
made while the game's line was 50 is scored after a re-ingestion moved
the line to 60 and the game finished 30–25 (total 55): the profile
credits nothing (55 is not over 60), although judging against the line
frozen at pick time would give `over` (55 over 50). -/
theorem c5_line_not_frozen_at_pick :
    (make_prediction
        ⟨[mkGame "g1" "2025-10-04T16:00" (some 50) none none false], [], []⟩
        "u" "g1" "home" "over" "2025-10-03T12:00").picks =
      [⟨"u", "g1", "home", "over", "2025-10-03T12:00"⟩] ∧
    (profileAcc
        (applyFinalResult
          (upsert_games [mkGame "g1" "2025-10-04T16:00" (some 50) none none false]
            [mkRecord "g1" "2025-10-04T16:00" (some 60)])
          "g1" (some 30) (some 25) true)
        [⟨"u", "g1", "home", "over", "2025-10-03T12:00"⟩] "u").wins = 0 ∧
    profileOUResult 55 (some 50) = "over" := by
  decide

/-- C5 amended: a submission stores only (user, game, winner, total,
made_at) — no line value; when the pick's game is finalized with both
scores present, scoring judges the total against the over/under held in
the game record at scoring time, and re-ingesting a record for the same
game overwrites that stored line unconditionally (whatever its previous
value, kickoff status, or finality). -/
theorem c5_scoring_reads_current_line (g : Game) (r : FeedRecord) (p : Pick)
    (hid : r.game_id = g.game_id) (hpg : p.game_id = g.game_id) (home aw : Int) :
    (upsertOne [g] r).map (fun x => x.over_under) = [r.over_under] ∧
    scoredResult
        [{ g with
            is_final := true
            final_home_score := some home
            final_away_score := some aw }] p =
      some (winnerCorrect p.pick_winner home aw &&
        totalCorrectProfile p.pick_total (home + aw) g.over_under) := by
  constructor
  · unfold upsertOne
    have hb : (g.game_id == r.game_id) = true := by simp [hid]
    simp [hb, applyRecord, hid]
  · unfold scoredResult findGame
    have hb : (({ g with
        is_final := true
        final_home_score := some home
        final_away_score := some aw } : Game).game_id == p.game_id) = true := by
      simp [hpg]
    simp [List.find?, hb, pickCorrect]

theorem c5_scoring_reads_current_line_witness :
    (upsertOne [mkGame "g1" "t1" (some 50) none none false]
        (mkRecord "g1" "t1" (some 60))).map (fun x => x.over_under) = [some 60] ∧
    scoredResult
        [{ mkGame "g1" "t1" (some 50) none none false with
            is_final := true
            final_home_score := some (30 : Int)
            final_away_score := some (25 : Int) }]
        ⟨"u", "g1", "home", "over", "t0"⟩ =
      some (winnerCorrect "home" 30 25 &&
        totalCorrectProfile "over" 55
          (mkGame "g1" "t1" (some 50) none none false).over_under) :=
  c5_scoring_reads_current_line (mkGame "g1" "t1" (some 50) none none false)
    (mkRecord "g1" "t1" (some 60)) ⟨"u", "g1", "home", "over", "t0"⟩
    rfl rfl 30 25

/-- C6 counterexample: user u is winner-correct but total-wrong on g1
(spec points 1) and fully correct on g2 (spec points 2), so the claim
predicts a leaderboard total of 3; the code's leaderboard counts only
fully-correct picks and reports 1. -/
theorem c6_leaderboard_not_a_points_sum :
    leaderboard
        [mkGame "g1" "t1" (some 50) (some 30) (some 24) true,
          mkGame "g2" "t2" (some 40) (some 30) (some 20) true]
        [⟨"u", "g1", "home", "under", "s1"⟩, ⟨"u", "g2", "home", "over", "s2"⟩] =
      [("u", 1)] ∧
    pointsSpec true false + pointsSpec true true = 3 := by
  decide

/-- C6 amended: a user's leaderboard total is the COUNT of their picks
on finalized games whose winner comparison AND total comparison both
match (each pick contributes 0 or 1 — never 2), and a user appears on
the board iff they have at least one such fully-matching pick. -/
theorem c6_leaderboard_counts_full_hits (games : List Game) (picks : List Pick)
    (u : String) (n : Nat) :
    (u, n) ∈ leaderboard games picks ↔
      (n = userHits games picks u ∧ 0 < userHits games picks u) := by
  have husers : ∀ v, v ∈ leaderboardUsers games picks ↔ 0 < userHits games picks v := by
    intro v
    unfold leaderboardUsers userHits
    rw [List.mem_insertionSort, List.mem_dedup, List.mem_map,
      ← List.countP_eq_length_filter, List.countP_pos_iff]
    constructor
    · rintro ⟨p, hp, hpv⟩
      have hm := List.mem_filter.1 hp
      exact ⟨p, hm.1, by simp [hpv, hm.2]⟩
    · rintro ⟨p, hp, hP⟩
      rw [Bool.and_eq_true] at hP
      have h1 : p.user = v := by simpa using hP.1
      exact ⟨p, List.mem_filter.2 ⟨hp, hP.2⟩, h1⟩
  unfold leaderboard
  rw [List.mem_insertionSort, List.mem_map]
  constructor
  · rintro ⟨v, hv, heq⟩
    have h1 : v = u := congrArg Prod.fst heq
    have h2 : userHits games picks v = n := congrArg Prod.snd heq
    rw [h1] at h2 hv
    exact ⟨h2.symm, (husers u).1 hv⟩
  · rintro ⟨rfl, hpos⟩
    exact ⟨u, (husers u).2 hpos, rfl⟩

/-- C7 counterexample: `Bob` and `alice` each have one fully-correct
pick (equal points); the code's output orders them `[Bob, alice]` — the
grouping's BINARY order, where uppercase `B` precedes lowercase `a` —
not the case-insensitive ascending `[alice, Bob]` the claim requires. -/
theorem c7_equal_points_order_is_binary :
    leaderboard [mkGame "g1" "t1" (some 50) (some 30) (some 24) true]
        [⟨"alice", "g1", "home", "over", "s1"⟩, ⟨"Bob", "g1", "home", "over", "s2"⟩] =
      [("Bob", 1), ("alice", 1)] := by
  decide

/-- C7 amended: the leaderboard is ordered by points descending; the
query applies no username sort key, so users with equal points appear in
the order the grouping produced them — strictly ascending usernames
under BINARY (case-sensitive) collation, not case-insensitively. -/
theorem c7_points_desc_then_binary_username (games : List Game) (picks : List Pick) :
    (leaderboard games picks).Pairwise lbKey := by
  unfold leaderboard
  apply pairwise_insertionSort_lbKey
  rw [List.pairwise_map]
  have hsorted : (leaderboardUsers games picks).Pairwise (fun a b => strLe a b = true) :=
    List.sorted_insertionSort _ _
  have hnodup : (leaderboardUsers games picks).Nodup := by
    unfold leaderboardUsers
    exact ((List.perm_insertionSort _ _).nodup_iff).2 (List.nodup_dedup _)
  exact (hsorted.and hnodup).imp (fun h => ⟨h.1, h.2⟩)

/-- A 16-game catalog: g01 is finalized 30–24 with line 50, g16 is
finalized 30–20 with line 40, g02..g15 are future games. -/
def c8Games : List Game :=
  [mkGame "g01" "t01" (some 50) (some 30) (some 24) true,
    mkGame "g02" "t02" none none none false,
    mkGame "g03" "t03" none none none false,
    mkGame "g04" "t04" none none none false,
    mkGame "g05" "t05" none none none false,
    mkGame "g06" "t06" none none none false,
    mkGame "g07" "t07" none none none false,
    mkGame "g08" "t08" none none none false,
    mkGame "g09" "t09" none none none false,
    mkGame "g10" "t10" none none none false,
    mkGame "g11" "t11" none none none false,
    mkGame "g12" "t12" none none none false,
    mkGame "g13" "t13" none none none false,
    mkGame "g14" "t14" none none none false,
    mkGame "g15" "t15" none none none false,
    mkGame "g16" "t16" (some 40) (some 30) (some 20) true]

/-- User u's picks for the 16-game catalog: wrong on g01, fully correct
on g16 (the game with the latest kickoff, outside the top 15). -/
def c8Picks : List Pick :=
  [⟨"u", "g01", "away", "under", "s1"⟩, ⟨"u", "g16", "home", "over", "s2"⟩]

/-- C8 counterexample: with 16 games in the catalog, the user's
chronological scored results over ALL finalized games are
[false, true], whose walk gives streak 1 — but the profile reports
streak 0, because the fully-correct pick is on the 16th game by kickoff
and the profile only walks picks on the first 15. -/
theorem c8_walk_misses_sixteenth_game :
    (profileAcc c8Games c8Picks "u").current_streak = 0 ∧
      claimStreakAllGames c8Games c8Picks "u" = 1 := by
  decide

/-- C8 amended: the reported streak equals the walk — increment on a
fully-correct scored result, reset to zero otherwise, unscored rows
invisible — over the user's picks as the profile processes them (its
made_at-ordered picks on the 15 earliest-kickoff games, rather than all
of the user's picks); on the fully-correct sequence
[true, true, false, true] the walk yields 1, not 3. -/
theorem c8_streak_is_reset_walk (games : List Game) (picks : List Pick)
    (user : String) :
    (profileAcc games picks user).current_streak =
        computeStreak (scoredResults games (profilePicks games picks user)) ∧
      computeStreak [true, true, false, true] = 1 := by
  constructor
  · unfold profileAcc computeStreak
    exact foldl_profileStep_streak games (profilePicks games picks user) profileInit
      (by intro h; simp [profileInit] at h)
  · rfl

/-- The finals columns of a game produced by an ingestion upsert either
come unchanged from a catalog row with the same id, or are the INSERT
defaults (NULL scores, not final). -/
def finalsFrom (games : List Game) (g' : Game) : Prop :=
  (∃ g ∈ games, g.game_id = g'.game_id ∧ g'.final_home_score = g.final_home_score ∧
    g'.final_away_score = g.final_away_score ∧ g'.is_final = g.is_final) ∨
  (g'.final_home_score = none ∧ g'.final_away_score = none ∧ g'.is_final = false)

theorem upsertOne_finalsFrom (games : List Game) (r : FeedRecord) :
    ∀ g' ∈ upsertOne games r, finalsFrom games g' := by
  intro g' hg'
  unfold upsertOne at hg'
  split at hg'
  · obtain ⟨g, hg, hmap⟩ := List.mem_map.1 hg'
    by_cases hid : (g.game_id == r.game_id) = true
    · rw [if_pos hid] at hmap
      exact Or.inl ⟨g, hg, by rw [← hmap]; exact ⟨rfl, rfl, rfl, rfl⟩⟩
    · rw [if_neg hid] at hmap
      exact Or.inl ⟨g, hg, by rw [← hmap]; exact ⟨rfl, rfl, rfl, rfl⟩⟩
  · rcases List.mem_append.1 hg' with hg | hg
    · exact Or.inl ⟨g', hg, rfl, rfl, rfl, rfl⟩
    · have : g' = newGame r := by simpa using hg
      exact Or.inr ⟨by rw [this]; rfl, by rw [this]; rfl, by rw [this]; rfl⟩

theorem finalsFrom_upsertOne_trans (games : List Game) (r : FeedRecord) (g' : Game)
    (h : finalsFrom (upsertOne games r) g') : finalsFrom games g' := by
  rcases h with ⟨g'', hg'', hid, h1, h2, h3⟩ | hdef
  · rcases upsertOne_finalsFrom games r g'' hg'' with ⟨g, hg, hid2, k1, k2, k3⟩ | hdef2
    · exact Or.inl ⟨g, hg, hid2.trans hid, h1.trans k1, h2.trans k2, h3.trans k3⟩
    · exact Or.inr ⟨h1.trans hdef2.1, h2.trans hdef2.2.1, h3.trans hdef2.2.2⟩
  · exact Or.inr hdef

theorem upsert_games_finalsFrom :
    ∀ (rs : List FeedRecord) (games : List Game),
      ∀ g' ∈ upsert_games games rs, finalsFrom games g' := by
  intro rs
  induction rs with
  | nil =>
    intro games g' hg'
    exact Or.inl ⟨g', hg', rfl, rfl, rfl, rfl⟩
  | cons r rs ih =>
    intro games g' hg'
    exact finalsFrom_upsertOne_trans games r g' (ih (upsertOne games r) g' hg')

/-- C9 counterexample: a finalized game (30–24) is handed to the
result-update statement with NULL scores and completed=false — as
happens when the feed later reports the game as not completed — and the
catalog row reverts to unfinalized with its scores erased; the claim
says `finalized` never returns to false and final scores never change. -/
theorem c9_result_update_reverts_finalized :
    (mkGame "g1" "t1" (some 50) (some 30) (some 24) true).is_final = true ∧
      applyFinalResult [mkGame "g1" "t1" (some 50) (some 30) (some 24) true]
          "g1" none none false =
        [mkGame "g1" "t1" (some 50) none none false] := by
  decide

/-- C9 amended: the general ingestion upsert indeed never writes the
final-score fields or the finalized flag (every upserted row's finals
either come unchanged from the matching catalog row or are the insert
defaults), but the result-update statement overwrites final scores and
the finalized flag of the matched game unconditionally — so the
finalized transition is not one-way and score fields are not immutable
after finalization. -/
theorem c9_upsert_keeps_finals_update_overwrites (games : List Game)
    (rs : List FeedRecord) (gid : String) (hs aws : Option Int) (fin : Bool) :
    (∀ g' ∈ upsert_games games rs, finalsFrom games g') ∧
      (∀ g' ∈ applyFinalResult games gid hs aws fin, g'.game_id = gid →
        g'.final_home_score = hs ∧ g'.final_away_score = aws ∧ g'.is_final = fin) := by
  constructor
  · exact upsert_games_finalsFrom rs games
  · intro g' hg' hgid
    obtain ⟨g, _, hmap⟩ := List.mem_map.1 hg'
    by_cases hid : (g.game_id == gid) = true
    · rw [if_pos hid] at hmap
      rw [← hmap]
      exact ⟨rfl, rfl, rfl⟩
    · rw [if_neg hid] at hmap
      rw [hmap] at hid
      exact absurd (by simp [hgid]) hid

theorem c9_upsert_keeps_finals_update_overwrites_witness :
    finalsFrom [mkGame "g1" "t1" (some 50) (some 3) (some 2) true]
        (applyRecord (mkRecord "g1" "t2" (some 60))
          (mkGame "g1" "t1" (some 50) (some 3) (some 2) true)) ∧
      ({ mkGame "g1" "t1" (some 50) (some 3) (some 2) true with
          final_home_score := some (7 : Int)
          final_away_score := some (5 : Int)
          is_final := true } : Game).final_home_score = some 7 ∧
        ({ mkGame "g1" "t1" (some 50) (some 3) (some 2) true with
            final_home_score := some (7 : Int)
            final_away_score := some (5 : Int)
            is_final := true } : Game).final_away_score = some 5 ∧
        ({ mkGame "g1" "t1" (some 50) (some 3) (some 2) true with
            final_home_score := some (7 : Int)
            final_away_score := some (5 : Int)
            is_final := true } : Game).is_final = true :=
  ⟨(c9_upsert_keeps_finals_update_overwrites
      [mkGame "g1" "t1" (some 50) (some 3) (some 2) true]
      [mkRecord "g1" "t2" (some 60)] "g1" (some 7) (some 5) true).1
    (applyRecord (mkRecord "g1" "t2" (some 60))
      (mkGame "g1" "t1" (some 50) (some 3) (some 2) true))
    (by decide),
    (c9_upsert_keeps_finals_update_overwrites
      [mkGame "g1" "t1" (some 50) (some 3) (some 2) true]
      [mkRecord "g1" "t2" (some 60)] "g1" (some 7) (some 5) true).2
    ({ mkGame "g1" "t1" (some 50) (some 3) (some 2) true with
        final_home_score := some (7 : Int)
        final_away_score := some (5 : Int)
        is_final := true })
    (by decide) rfl⟩

/-- C10: the profile statistics are computed only from the user's picks
on the 15 earliest-kickoff games: appending a pick on any game outside
that set changes nothing — not the loop state, nor the win rate, the
streak, or the badge decisions. -/
theorem c10_profile_limited_to_top15 (games : List Game) (picks : List Pick)
    (user : String) (p : Pick) (h : p.game_id ∉ top_game_ids games) :
    profileAcc games (picks ++ [p]) user = profileAcc games picks user ∧
      win_rate (profileAcc games (picks ++ [p]) user) =
        win_rate (profileAcc games picks user) ∧
      (profileAcc games (picks ++ [p]) user).current_streak =
        (profileAcc games picks user).current_streak ∧
      badgesDecided (profileAcc games (picks ++ [p]) user) =
        badgesDecided (profileAcc games picks user) := by
  have hfilter :
      ([p].filter (fun q => q.user == user && (top_game_ids games).contains q.game_id)) =
        [] := by
    simp only [List.filter_cons, List.filter_nil]
    have : (top_game_ids games).contains p.game_id = false := by
      simpa using h
    rw [this]
    simp
  have hp : profilePicks games (picks ++ [p]) user = profilePicks games picks user := by
    unfold profilePicks
    rw [List.filter_append, hfilter, List.append_nil]
  have hacc : profileAcc games (picks ++ [p]) user = profileAcc games picks user := by
    unfold profileAcc
    rw [hp]
  exact ⟨hacc, by rw [hacc], by rw [hacc], by rw [hacc]⟩

theorem c10_profile_limited_to_top15_witness :
    ("g16" ∉ top_game_ids c8Games) ∧
      (profileAcc c8Games ([⟨"u", "g01", "away", "under", "s1"⟩] ++
            [⟨"u", "g16", "home", "over", "s2"⟩]) "u" =
          profileAcc c8Games [⟨"u", "g01", "away", "under", "s1"⟩] "u" ∧
        win_rate (profileAcc c8Games ([⟨"u", "g01", "away", "under", "s1"⟩] ++
            [⟨"u", "g16", "home", "over", "s2"⟩]) "u") =
          win_rate (profileAcc c8Games [⟨"u", "g01", "away", "under", "s1"⟩] "u") ∧
        (profileAcc c8Games ([⟨"u", "g01", "away", "under", "s1"⟩] ++
            [⟨"u", "g16", "home", "over", "s2"⟩]) "u").current_streak =
          (profileAcc c8Games [⟨"u", "g01", "away", "under", "s1"⟩] "u").current_streak ∧
        badgesDecided (profileAcc c8Games ([⟨"u", "g01", "away", "under", "s1"⟩] ++
            [⟨"u", "g16", "home", "over", "s2"⟩]) "u") =
          badgesDecided (profileAcc c8Games [⟨"u", "g01", "away", "under", "s1"⟩] "u")) :=
  ⟨by decide,
    c10_profile_limited_to_top15 c8Games [⟨"u", "g01", "away", "under", "s1"⟩] "u"
      ⟨"u", "g16", "home", "over", "s2"⟩ (by decide)⟩

end PickEm
